import Mathlib

/-!
Verification of the wordplay core: a shallow embedding of the AST node
model, the AST→Step compiler, the table-typing and row-analysis rules,
and several conflict detectors, with theorems settling the spec's claims
about them. Node reference identity is modelled by natural-number ids:
two child slots hold the same node exactly when they hold the same id.
-/

/-! ## Steps and the expression compiler

`Step` mirrors `src/runtime/Start.ts` / `Finish.ts`: each step records the
node that produced it. `Expr` covers the expression kinds whose `compile`
methods appear in the source: `ConversionDefinition.compile` returns
`[Start, Finish]`; `SetLiteral.compile` returns a `Start`, the elements'
steps accumulated left-to-right by `reduce`, then a `Finish`;
`Select.compile` returns a `Start`, the table's steps, then a `Finish`
(its row cells and query are carried in the tree but never compiled). -/

inductive Step where
  | start (node : Nat)
  | finish (node : Nat)
deriving DecidableEq, Repr

inductive Expr where
  | conversionDef (id : Nat)
  | setLiteral (id : Nat) (values : List Expr)
  | select (id : Nat) (table : Expr) (rowCells : List Expr) (query : Expr)
deriving Repr

mutual

def compile : Expr → List Step
  | .conversionDef i => [.start i, .finish i]
  | .setLiteral i vs => .start i :: compileFold [] vs ++ [.finish i]
  | .select i t _ _ => .start i :: compile t ++ [.finish i]

/-- The `values.reduce((steps, item) => [...steps, ...item.compile(context)], [])`
accumulator of `SetLiteral.compile`. -/
def compileFold : List Step → List Expr → List Step
  | acc, [] => acc
  | acc, e :: es => compileFold (acc ++ compile e) es

end

/-- The fold of `SetLiteral.compile` concatenates each element's steps in
left-to-right source order. -/
theorem compileFold_eq (acc : List Step) (es : List Expr) :
    compileFold acc es = acc ++ es.flatMap compile := by
  induction es generalizing acc with
  | nil => simp [compileFold]
  | cons e es ih => simp [compileFold, ih]

/-! ## Runtime values and `SetLiteral.evaluate`

`Val` is a runtime value: primitive values are opaque ids; a set value
records its creator node and its elements. `popLoop` is the
`for (let i = 0; i < n; i++) values.unshift(evaluator.popValue(this))`
loop of `SetLiteral.evaluate`, popping from the head of the value stack;
popping an empty stack cannot produce a value (`none`). -/

inductive Val where
  | prim (id : Nat)
  | set (creator : Nat) (elements : List Val)
deriving Repr

def popLoop : Nat → List Val → List Val → Option (List Val × List Val)
  | 0, vals, stack => some (vals, stack)
  | n + 1, vals, stack =>
    match stack with
    | [] => none
    | v :: rest => popLoop n (v :: vals) rest

/-- `SetLiteral.evaluate`: with a prior value, return it; otherwise pop one
value per element of the literal, `unshift`-ing each onto the front of the
element list, and build a `Set` value created by this literal. -/
def SetLiteral.evaluate (id : Nat) (values : List Expr) (prior : Option Val)
    (stack : List Val) : Option (Val × List Val) :=
  match prior with
  | some p => some (p, stack)
  | none =>
    match popLoop values.length [] stack with
    | none => none
    | some (vals, rest) => some (.set id vals, rest)

theorem popLoop_append (revd : List Val) (acc rest : List Val) :
    popLoop revd.length acc (revd ++ rest) = some (revd.reverse ++ acc, rest) := by
  induction revd generalizing acc with
  | nil => simp [popLoop]
  | cons v vs ih => simp [popLoop, ih, List.reverse_cons, List.append_assoc]

/-! ## Evaluator state and `Select.evaluate`

`Select.evaluate` ignores the evaluator entirely and returns a
not-implemented exception value created by the select node. -/

inductive ExceptionType where
  | notImplemented
  | otherKind (n : Nat)
deriving DecidableEq, Repr

inductive RtValue where
  | exception (creator : Nat) (kind : ExceptionType)
  | table (id : Nat)
  | otherValue (n : Nat)
deriving DecidableEq, Repr

/-- The evaluator's observable state: its value stack and frame count. -/
structure EvaluatorState where
  valueStack : List Nat
  frameCount : Nat
deriving DecidableEq, Repr

def Select.evaluate (selfId : Nat) (_evaluator : EvaluatorState) : RtValue :=
  .exception selfId .notImplemented

def RtValue.isTable : RtValue → Bool
  | .table _ => true
  | _ => false

/-! ## Node replacement (`replace` / `clone`)

A node's child slot holds a node reference, modelled as a `Nat` id.
`ConversionDefinition.replace` rebuilds the node passing each child
through `replaceChild`; `SetLiteral.clone` does the same for its `open`
token, its `values` list, and its optional `close` token. -/

/-- Modelled from the spec: `Node.replaceChild` is declared by callers in
`ConversionDefinition.replace` and `SetLiteral.clone` but `Node.ts` is not
in the sources. Per the spec's replacement contract, the child equal (by
reference) to `original` is substituted by `replacement` and any other
child is kept by reference. -/
def replaceChild (original replacement child : Nat) : Nat :=
  if child = original then replacement else child

/-- Modelled from the spec: `replaceChild` applied to a list-valued slot
substitutes the matching element and keeps every other element by
reference. -/
def replaceChildList (original replacement : Nat) (children : List Nat) : List Nat :=
  children.map (replaceChild original replacement)

/-- Modelled from the spec: `replaceChild` applied to an optional slot. -/
def replaceChildOpt (original replacement : Nat) (child : Option Nat) : Option Nat :=
  child.map (replaceChild original replacement)

structure ConversionDefinition where
  docs : Nat
  arrow : Nat
  input : Nat
  output : Nat
  expression : Nat
deriving DecidableEq, Repr

def ConversionDefinition.replace (n : ConversionDefinition)
    (original replacement : Nat) : ConversionDefinition :=
  { docs := replaceChild original replacement n.docs
    input := replaceChild original replacement n.input
    output := replaceChild original replacement n.output
    expression := replaceChild original replacement n.expression
    arrow := replaceChild original replacement n.arrow }

/-- The five child slots of a `ConversionDefinition`, in grammar order. -/
def ConversionDefinition.slot (n : ConversionDefinition) : Fin 5 → Nat
  | 0 => n.docs
  | 1 => n.arrow
  | 2 => n.input
  | 3 => n.output
  | 4 => n.expression

structure SetLiteralNode where
  openTok : Nat
  values : List Nat
  closeTok : Option Nat
deriving DecidableEq, Repr

def SetLiteralNode.clone (s : SetLiteralNode)
    (original replacement : Nat) : SetLiteralNode :=
  { openTok := replaceChild original replacement s.openTok
    values := replaceChildList original replacement s.values
    closeTok := replaceChildOpt original replacement s.closeTok }

theorem replaceChild_self (original replacement : Nat) :
    replaceChild original replacement original = replacement := by
  simp [replaceChild]

theorem replaceChild_other (original replacement child : Nat)
    (h : child ≠ original) :
    replaceChild original replacement child = child := by
  simp [replaceChild, h]

/-! ## Select typing (`Select.getType`)

`ColumnType` carries the column's bind names, the column value type
(an opaque type id: the `accepts` machinery is external to these
sources), and whether the bind has a default value. `Ty` is the slice of
the type variants `Select.getType` can consume or produce; because the
source casts a `(ColumnType | undefined)[]` to `ColumnType[]`, a table
type's runtime column list may contain missing (`none`) entries. -/

structure ColumnType where
  id : Nat
  names : List String
  valueType : Nat
  hasDefault : Bool
deriving DecidableEq, Repr

inductive Ty where
  | unknown (creator : Nat)
  | tableOf (columns : List (Option ColumnType))
  | otherTy (n : Nat)
deriving DecidableEq, Repr

/-- `TableType.getColumnNamed` over a runtime column list: the first
column whose bind has the given name. (A missing entry has no bind and
matches no name.) -/
def getColumnNamedOpt (columns : List (Option ColumnType)) (name : String) :
    Option ColumnType :=
  match columns.find? (fun oc =>
    match oc with
    | some c => c.names.contains name
    | none => false) with
  | some (some c) => some c
  | _ => none

/-- A cell of a select row: either a `Name` expression or some other
expression kind. -/
inductive CellExpr where
  | name (text : String)
  | otherExpr (id : Nat)
deriving DecidableEq, Repr

/-- JavaScript truthiness of the result of
`columnTypes.find(t => t === undefined)`: the call returns the found
element itself, so finding a missing (`undefined`) entry still yields a
falsy `undefined`. -/
def jsFindUndefinedTruthy (columnTypes : List (Option ColumnType)) : Bool :=
  match columnTypes.find? (fun t => t = none) with
  | some (some _) => true
  | some none => false
  | none => false

/-- `Select.getType`: `selfId` is the select node, `tableType` the static
type of its table sub-expression, `cells` the expressions of its row's
cells. -/
def Select.getType (selfId : Nat) (tableType : Ty) (cells : List CellExpr) : Ty :=
  match tableType with
  | .tableOf columns =>
    let columnTypes := cells.map (fun cell =>
      match cell with
      | .name text => getColumnNamedOpt columns text
      | .otherExpr _ => none)
    if jsFindUndefinedTruthy columnTypes then .unknown selfId
    else .tableOf columnTypes
  | _ => .unknown selfId

/-! ## Row analysis (`analyzeRow`)

A row cell's value is either a `Bind` (a named cell) or an expression
(an unnamed cell). `Ctx` carries the type-acceptance relation
`expected.accepts(given, context)` over opaque type ids; the `accepts`
machinery itself is external to these sources. -/

inductive CellV where
  | bindCell (id : Nat) (names : List String) (given : Nat)
  | exprCell (id : Nat) (given : Nat)
deriving DecidableEq, Repr

def CellV.isBind : CellV → Bool
  | .bindCell _ _ _ => true
  | .exprCell _ _ => false

def CellV.cellId : CellV → Nat
  | .bindCell i _ _ => i
  | .exprCell i _ => i

/-- `cell.getType(context)`: the type of the cell's value, as an opaque
type id carried by the cell. -/
def CellV.givenType : CellV → Nat
  | .bindCell _ _ g => g
  | .exprCell _ g => g

structure RowA where
  id : Nat
  cells : List CellV
deriving DecidableEq, Repr

structure TableTypeA where
  columns : List ColumnType
deriving DecidableEq, Repr

/-- `TableType.getColumnNamed`: the first column whose bind declares the
name (`undefined` when the looked-up name itself is absent). -/
def TableTypeA.getColumnNamed (tt : TableTypeA) (name : Option String) :
    Option ColumnType :=
  match name with
  | none => none
  | some n => tt.columns.find? (fun c => c.names.contains n)

structure Ctx where
  accepts : Nat → Nat → Bool

inductive RowConflict where
  | invalidRow (row : Nat)
  | unknownColumn (cell : Nat)
  | incompatibleCellType (cell : Nat) (expected : Nat) (given : Nat)
  | missingCell (row : Nat) (column : Nat)
deriving DecidableEq, Repr

def CellV.firstName : CellV → Option String
  | .bindCell _ names _ => names.head?
  | .exprCell _ _ => none

/-- The cell loop of the all-binds branch of `analyzeRow`: accumulates the
matched columns (`matchedColumns.push`) and the per-cell conflicts
(unknown column, incompatible cell type), skipping non-bind cells. -/
def bindLoop (ctx : Ctx) (tt : TableTypeA) :
    List CellV → List ColumnType → List RowConflict →
    List ColumnType × List RowConflict
  | [], matched, conflicts => (matched, conflicts)
  | cell :: cells, matched, conflicts =>
    match cell with
    | .exprCell _ _ => bindLoop ctx tt cells matched conflicts
    | .bindCell cid names given =>
      match tt.getColumnNamed names.head? with
      | none => bindLoop ctx tt cells matched (conflicts ++ [.unknownColumn cid])
      | some col =>
        if ctx.accepts col.valueType given then
          bindLoop ctx tt cells (matched ++ [col]) conflicts
        else
          bindLoop ctx tt cells (matched ++ [col])
            (conflicts ++ [.incompatibleCellType cid col.valueType given])

/-- The column loop of the all-binds branch: a `MissingCell` for each
column that was not matched and has no default. -/
def missingLoop (rowId : Nat) (matched : List ColumnType) :
    List ColumnType → List RowConflict
  | [] => []
  | col :: cols =>
    (if !matched.contains col && !col.hasDefault then
      [.missingCell rowId col.id]
    else []) ++ missingLoop rowId matched cols

/-- The column loop of the all-expressions branch: cells are `shift`ed per
column; an exhausted cell list yields a `MissingCell` (with no default
check), a present cell is type-checked against its column. -/
def exprLoop (ctx : Ctx) (rowId : Nat) :
    List ColumnType → List CellV → List RowConflict
  | [], _ => []
  | col :: cols, [] => .missingCell rowId col.id :: exprLoop ctx rowId cols []
  | col :: cols, cell :: cells =>
    (if ctx.accepts col.valueType cell.givenType then []
    else [.incompatibleCellType cell.cellId col.valueType cell.givenType])
      ++ exprLoop ctx rowId cols cells

def analyzeRow (ctx : Ctx) (tableType : TableTypeA) (row : RowA) :
    List RowConflict :=
  if row.cells.all CellV.isBind then
    let ml := bindLoop ctx tableType row.cells [] []
    ml.2 ++ missingLoop row.id ml.1 tableType.columns
  else if row.cells.all (fun c => !c.isBind) then
    exprLoop ctx row.id tableType.columns row.cells
  else
    [.invalidRow row.id]

/-! ## MissingInput conflict nodes -/

structure EvaluateNode where
  fn : Nat
  id : Nat
deriving DecidableEq, Repr

structure BindNode where
  id : Nat
deriving DecidableEq, Repr

structure MissingInput where
  func : Nat
  evaluate : EvaluateNode
  last : Nat
  input : BindNode
deriving DecidableEq, Repr

structure ConflictingNodes where
  primary : Nat
  secondary : Option Nat
deriving DecidableEq, Repr

/-- `MissingInput.getConflictingNodes`: primary is the call's function
node (`this.evaluate.fun`), secondary is the missing input's bind
(`this.input`). -/
def MissingInput.getConflictingNodes (m : MissingInput) : ConflictingNodes :=
  { primary := m.evaluate.fn, secondary := some m.input.id }

/-! ## Case collision (`getCaseCollision`)

String case mapping (`toLocaleUpperCase` / `toLocaleLowerCase`) is
modelled as per-character ASCII case mapping. A scope definition is a
`Bind` with its aliases, or some other definition kind. -/

def strUpper (s : String) : String := ⟨s.data.map Char.toUpper⟩

def strLower (s : String) : String := ⟨s.data.map Char.toLower⟩

inductive Defn where
  | bindDef (id : Nat) (aliases : List String)
  | otherDef (id : Nat) (names : List String)
deriving DecidableEq, Repr

def Defn.declaredNames : Defn → List String
  | .bindDef _ aliases => aliases
  | .otherDef _ names => names

structure Scope where
  defs : List Defn
deriving DecidableEq, Repr

/-- Modelled from the spec: `Node.getDefinitionOfName` is not in the
sources; per the spec's name-resolution description it returns the
scope's definition declaring the given name (case-sensitively). -/
def Scope.getDefinitionOfName (s : Scope) (name : String) : Option Defn :=
  s.defs.find? (fun d => d.declaredNames.contains name)

structure CaseSensitive where
  node : Nat
  aliasName : String
deriving DecidableEq, Repr

def getCaseCollision (name : String) (enclosure : Option Scope) (node : Nat) :
    Option CaseSensitive :=
  match enclosure with
  | none => none
  | some enc =>
    let upper := strUpper name
    let lower := strLower name
    let otherCase : Option String :=
      if upper = lower then none
      else if name = upper then some lower
      else some upper
    match otherCase with
    | none => none
    | some oc =>
      match enc.getDefinitionOfName oc with
      | some (.bindDef _ aliases) =>
        match aliases.find? (fun n => n = oc) with
        | some a => some { node := node, aliasName := a }
        | none => none
      | _ => none

/-! ## Misplaced conversion (`ConversionDefinition.computeConflicts`)

The binding scope returned by `getBindingScope` is either a `Block` or
some other node kind. Whether a block is the body of a structure
definition is recorded for stating properties; the source's check does
not consult it. -/

inductive ScopeNode where
  | blockNode (inStructureDef : Bool) (id : Nat)
  | nonBlock (id : Nat)
deriving DecidableEq, Repr

def ScopeNode.isBlock : ScopeNode → Bool
  | .blockNode _ _ => true
  | .nonBlock _ => false

/-- Whether this binding scope is the body block of a structure
definition (the notion the spec's conversion rule speaks about). -/
def ScopeNode.isStructureScope : ScopeNode → Bool
  | .blockNode s _ => s
  | .nonBlock _ => false

inductive ConversionConflict where
  | misplacedConversion (defId : Nat)
deriving DecidableEq, Repr

/-- `ConversionDefinition.computeConflicts`: a `MisplacedConversion` on
the definition exactly when the binding scope resolves and is not a
`Block`. -/
def ConversionDefinition.computeConflicts (selfId : Nat)
    (enclosure : Option ScopeNode) : List ConversionConflict :=
  match enclosure with
  | some e => if !e.isBlock then [.misplacedConversion selfId] else []
  | none => []

/-! ## Required after optional (`requiredBindAfterOptional`) -/

inductive InputNode where
  | bindInput (id : Nat) (hasValue : Bool)
  | unparsableInput (id : Nat)
deriving DecidableEq, Repr

def InputNode.isBind : InputNode → Bool
  | .bindInput _ _ => true
  | .unparsableInput _ => false

/-- `bind.value !== undefined`: the bind declares a default value. -/
def InputNode.hasValue : InputNode → Bool
  | .bindInput _ hv => hv
  | .unparsableInput _ => false

structure RequiredAfterOptional where
  bind : InputNode
deriving DecidableEq, Repr

/-- The `forEach` scan of `requiredBindAfterOptional`, threading the
`foundOptional` flag and the first required-after-optional bind found. -/
def raoScan : List InputNode → Bool → Option InputNode → Option InputNode
  | [], _, req => req
  | b :: rest, foundOptional, req =>
    if b.hasValue then raoScan rest true req
    else if foundOptional && req.isNone then raoScan rest foundOptional (some b)
    else raoScan rest foundOptional req

def requiredBindAfterOptional (inputs : List InputNode) :
    Option RequiredAfterOptional :=
  let binds := inputs.filter InputNode.isBind
  match raoScan binds false none with
  | some b => if inputs.length = binds.length then some ⟨b⟩ else none
  | none => none

/-- The first bind without a default value, an optional having been
seen. -/
def firstRequiredFrom : List InputNode → Option InputNode
  | [] => none
  | b :: rest => if b.hasValue then firstRequiredFrom rest else some b

/-- The claim's description of the offender: the first bind without a
default value that follows some bind with a default value. -/
def firstRequiredAfterOptional : List InputNode → Option InputNode
  | [] => none
  | b :: rest =>
    if b.hasValue then firstRequiredFrom rest
    else firstRequiredAfterOptional rest

/-! ## Helper lemmas -/

theorem ConversionDefinition.slot_replace (n : ConversionDefinition)
    (original replacement : Nat) (j : Fin 5) :
    (n.replace original replacement).slot j =
      replaceChild original replacement (n.slot j) := by
  fin_cases j <;> rfl

theorem raoScan_some (l : List InputNode) (f : Bool) (b : InputNode) :
    raoScan l f (some b) = some b := by
  induction l generalizing f with
  | nil => rfl
  | cons x rest ih =>
    by_cases hx : x.hasValue = true <;> simp [raoScan, hx, ih]

theorem raoScan_true (l : List InputNode) :
    raoScan l true none = firstRequiredFrom l := by
  induction l with
  | nil => rfl
  | cons x rest ih =>
    by_cases hx : x.hasValue = true <;>
      simp [raoScan, firstRequiredFrom, hx, ih, raoScan_some]

theorem raoScan_false (l : List InputNode) :
    raoScan l false none = firstRequiredAfterOptional l := by
  induction l with
  | nil => rfl
  | cons x rest ih =>
    by_cases hx : x.hasValue = true <;>
      simp [raoScan, firstRequiredAfterOptional, hx, ih, raoScan_true]

/-! ## Claim theorems -/

/-- Claim C1: for every node and every (original, replacement) pair naming
one of its child slots, `replace`/`clone` returns a new node of the same
kind in which exactly the targeted slot is substituted and every other
child slot refers to the original child node by reference: shown for
`ConversionDefinition.replace` over its five slots and for
`SetLiteral.clone` over its open token, element list and close token. -/
theorem replace_substitutes_exactly_the_named_slot :
    (∀ (n : ConversionDefinition) (original replacement : Nat) (k : Fin 5),
      original = n.slot k →
      (∀ j : Fin 5, j ≠ k → n.slot j ≠ original) →
      ((n.replace original replacement).slot k = replacement ∧
        ∀ j : Fin 5, j ≠ k →
          (n.replace original replacement).slot j = n.slot j)) ∧
    (∀ (s : SetLiteralNode) (original replacement : Nat) (k : Nat)
      (hk : k < s.values.length),
      s.values[k] = original →
      (∀ j (hj : j < s.values.length), j ≠ k → s.values[j] ≠ original) →
      s.openTok ≠ original →
      s.closeTok ≠ some original →
      ((s.clone original replacement).openTok = s.openTok ∧
        (s.clone original replacement).closeTok = s.closeTok ∧
        (s.clone original replacement).values = s.values.set k replacement)) := by
  constructor
  · intro n original replacement k hk hother
    constructor
    · rw [ConversionDefinition.slot_replace, ← hk, replaceChild_self]
    · intro j hj
      rw [ConversionDefinition.slot_replace,
        replaceChild_other _ _ _ (hother j hj)]
  · intro s original replacement k hk hkeq hother hopen hclose
    refine ⟨replaceChild_other _ _ _ hopen, ?_, ?_⟩
    · cases hc : s.closeTok with
      | none => simp [SetLiteralNode.clone, replaceChildOpt, hc]
      | some c =>
        have hc' : c ≠ original := by
          intro h
          exact hclose (by rw [hc, h])
        simp [SetLiteralNode.clone, replaceChildOpt, hc,
          replaceChild_other _ _ _ hc']
    · show replaceChildList original replacement s.values = _
      unfold replaceChildList
      apply List.ext_getElem
      · simp
      · intro i h1 h2
        rw [List.getElem_map, List.getElem_set]
        by_cases hik : k = i
        · subst hik
          rw [if_pos rfl, hkeq, replaceChild_self]
        · rw [if_neg hik,
            replaceChild_other _ _ _
              (hother i (by simpa using h1) (fun h => hik h.symm))]

/-- Witness for C1 at a concrete conversion definition and set literal. -/
theorem replace_substitutes_exactly_the_named_slot_witness :
    ((ConversionDefinition.mk 0 1 2 3 4).replace 2 99).slot 2 = 99 ∧
    ((SetLiteralNode.mk 0 [1, 2, 3] (some 4)).clone 2 99).values =
      [1, 99, 3] := by
  constructor
  · exact (replace_substitutes_exactly_the_named_slot.1
      ⟨0, 1, 2, 3, 4⟩ 2 99 2 rfl (by decide)).1
  · have h := replace_substitutes_exactly_the_named_slot.2
      ⟨0, [1, 2, 3], some 4⟩ 2 99 1 (by decide) rfl (by decide)
      (by decide) (by decide)
    simpa using h.2.2

/-- Claim C2: `Select.compile` returns exactly a `Start` for the select,
the compiled steps of the table sub-expression only, and a `Finish`; the
row cells and the query contribute no steps whatever they are. -/
theorem select_compile_is_start_table_finish
    (i : Nat) (t : Expr) (rowCells : List Expr) (query : Expr) :
    compile (.select i t rowCells query) =
      Step.start i :: compile t ++ [Step.finish i] := by
  simp [compile]

/-- Claim C5: `MissingInput.getConflictingNodes` identifies the call's
function node as primary and the missing input's bind as secondary. -/
theorem missingInput_references_call_and_parameter (m : MissingInput) :
    m.getConflictingNodes.primary = m.evaluate.fn ∧
    m.getConflictingNodes.secondary = some m.input.id :=
  ⟨rfl, rfl⟩

/-- Claim C6: `SetLiteral.compile` returns a `Start`, the elements'
compiled steps left-to-right, and a `Finish`; evaluating the `Finish`
pops exactly one value per element off the stack and produces a `Set`
whose elements keep the left-to-right source order. -/
theorem setLiteral_compile_and_evaluate_order (i : Nat) (vs : List Expr) :
    compile (.setLiteral i vs) =
      Step.start i :: vs.flatMap compile ++ [Step.finish i] ∧
    ∀ (elems rest : List Val), elems.length = vs.length →
      SetLiteral.evaluate i vs none (elems.reverse ++ rest) =
        some (Val.set i elems, rest) := by
  constructor
  · simp [compile, compileFold_eq]
  · intro elems rest hlen
    have h := popLoop_append elems.reverse [] rest
    simp only [List.reverse_reverse, List.append_nil, List.length_reverse]
      at h
    simp [SetLiteral.evaluate, ← hlen, h]

/-- Witness for C6 at a two-element set literal: the left element's value
sits deeper in the stack and comes out first in the set. -/
theorem setLiteral_compile_and_evaluate_order_witness :
    compile (.setLiteral 0 [.conversionDef 1, .conversionDef 2]) =
      [Step.start 0, Step.start 1, Step.finish 1, Step.start 2,
        Step.finish 2, Step.finish 0] ∧
    SetLiteral.evaluate 0 [.conversionDef 1, .conversionDef 2] none
        [Val.prim 20, Val.prim 10, Val.prim 99] =
      some (Val.set 0 [Val.prim 10, Val.prim 20], [Val.prim 99]) := by
  have h := setLiteral_compile_and_evaluate_order 0
    [.conversionDef 1, .conversionDef 2]
  refine ⟨by rw [h.1]; simp [compile], ?_⟩
  have h2 := h.2 [Val.prim 10, Val.prim 20] [Val.prim 99] rfl
  simpa using h2

/-- Claim C9: for every evaluator state, evaluating a `Select` returns an
exception value of kind not-implemented created by the select node; the
result is never a table value. -/
theorem select_evaluate_is_not_implemented_exception
    (selfId : Nat) (evaluator : EvaluatorState) :
    Select.evaluate selfId evaluator =
      RtValue.exception selfId ExceptionType.notImplemented ∧
    (Select.evaluate selfId evaluator).isTable = false :=
  ⟨rfl, rfl⟩

/-- Claim C3: at a table whose type has a single column named `a` and a
select row naming `b`, `Select.getType` returns a table type containing a
missing column entry instead of an Unknown type: the guard
`columnTypes.find(t => t === undefined)` yields the found `undefined`
itself, which is falsy, so the Unknown branch is unreachable and the
partial column list is cast into the resulting table type. -/
theorem select_getType_returns_partial_table_on_unknown_column :
    Select.getType 0
        (Ty.tableOf [some ⟨1, ["a"], 0, false⟩]) [CellExpr.name "b"] =
      Ty.tableOf [none] ∧
    Ty.tableOf [none] ≠ Ty.unknown 0 := by
  constructor
  · rfl
  · decide


/-- The single alternate case form that `getCaseCollision` consults. -/
def altCase (name : String) : String :=
  if name = strUpper name then strLower name else strUpper name

/-- Claim C7 counterexample: the scope defines a bind aliased `ab`, which
differs from the mixed-case name `aB` only by letter case, yet
`getCaseCollision` returns no warning: for a name that is not fully
upper-case it consults only the upper-case form (`AB`). -/
theorem getCaseCollision_missed_variant_counterexample :
    getCaseCollision "aB" (some ⟨[Defn.bindDef 0 ["ab"]]⟩) 5 = none ∧
    "ab" ≠ "aB" ∧
    strLower "ab" = strLower "aB" ∧
    Scope.getDefinitionOfName ⟨[Defn.bindDef 0 ["ab"]]⟩ "ab" =
      some (Defn.bindDef 0 ["ab"]) := by
  refine ⟨by decide, by decide, by decide, by decide⟩

/-- Claim C7 (amended): for a name whose upper- and lower-case forms
differ, `getCaseCollision` consults exactly one alternate form — the
lower-case form when the name is already fully upper-case, the
upper-case form otherwise — and returns a `CaseSensitive` warning
exactly when the enclosing scope's lookup of that single form yields a
bind with an alias spelled exactly as that form; other case variants of
the name go unwarned, and there is no warning without an enclosure. -/
theorem getCaseCollision_checks_single_alternate_form
    (name : String) (enc : Scope) (node : Nat) :
    ((getCaseCollision name (some enc) node).isSome = true ↔
      (strUpper name ≠ strLower name ∧
        ∃ i aliases,
          enc.getDefinitionOfName (altCase name) =
            some (Defn.bindDef i aliases) ∧
          altCase name ∈ aliases)) ∧
    getCaseCollision name none node = none := by
  refine ⟨?_, rfl⟩
  by_cases hul : strUpper name = strLower name
  · constructor
    · intro h
      simp [getCaseCollision, hul] at h
    · rintro ⟨h, _⟩
      exact absurd hul h
  · have hred : getCaseCollision name (some enc) node =
        (match enc.getDefinitionOfName (altCase name) with
          | some (.bindDef _ aliases) =>
            (match aliases.find? (fun n => n = altCase name) with
              | some a => some ⟨node, a⟩
              | none => none)
          | _ => none) := by
      unfold getCaseCollision altCase
      dsimp only
      by_cases hu : name = strUpper name
      · rw [if_neg hul, if_pos hu, if_pos hu]
      · rw [if_neg hul, if_neg hu, if_neg hu]
    rw [hred]
    cases hdef : enc.getDefinitionOfName (altCase name) with
    | none => simp [hul]
    | some d =>
      cases d with
      | otherDef i ns => simp [hul]
      | bindDef i aliases =>
        simp only [hul, ne_eq, not_false_iff, true_and]
        cases hfind : aliases.find? (fun n => n = altCase name) with
        | none =>
          simp only [Option.isSome_none, Bool.false_eq_true, false_iff]
          rintro ⟨i', a', heq, hmem⟩
          obtain ⟨rfl, rfl⟩ : i = i' ∧ aliases = a' := by
            simpa using heq
          have := List.find?_eq_none.mp hfind _ hmem
          simp at this
        | some a =>
          simp only [Option.isSome_some, true_iff]
          refine ⟨i, aliases, rfl, ?_⟩
          have ha := List.find?_some hfind
          have hmem := List.mem_of_find?_eq_some hfind
          have : a = altCase name := by simpa using ha
          subst this
          exact hmem

/-- Claim C8 counterexample: with a resolvable binding scope that is a
block but not a structure definition's body, `computeConflicts` returns
no conflict, although the definition is not scoped to an enclosing
structure definition. -/
theorem misplacedConversion_any_block_counterexample :
    ConversionDefinition.computeConflicts 7
        (some (ScopeNode.blockNode false 3)) = [] ∧
    (ScopeNode.blockNode false 3).isStructureScope = false := by
  exact ⟨rfl, rfl⟩

/-- Claim C8 (amended): with a resolvable binding scope,
`computeConflicts` returns a `MisplacedConversion` conflict (with the
definition as primary node) exactly when the scope is not a `Block`;
conversions are accepted inside any block, structure bodies or not, and
an unresolvable scope yields no conflict. -/
theorem misplacedConversion_iff_scope_not_block
    (selfId : Nat) (e : ScopeNode) :
    ConversionDefinition.computeConflicts selfId (some e) =
      (if e.isBlock then []
       else [ConversionConflict.misplacedConversion selfId]) ∧
    ConversionDefinition.computeConflicts selfId none = [] := by
  cases e <;>
    simp [ConversionDefinition.computeConflicts, ScopeNode.isBlock]

/-- Claim C10: `requiredBindAfterOptional` returns `none` whenever some
input is unparsable, and on an all-binds input list returns a
`RequiredAfterOptional` conflict naming the first bind without a default
value that follows some bind with a default value (or `none` when no
such bind exists). -/
theorem requiredBindAfterOptional_characterized (inputs : List InputNode) :
    ((∃ u ∈ inputs, u.isBind = false) →
      requiredBindAfterOptional inputs = none) ∧
    ((∀ u ∈ inputs, u.isBind = true) →
      requiredBindAfterOptional inputs =
        (firstRequiredAfterOptional inputs).map (fun b => ⟨b⟩)) := by
  constructor
  · rintro ⟨u, hu, hbad⟩
    have hlt : (inputs.filter InputNode.isBind).length < inputs.length := by
      apply List.length_filter_lt_length_iff_exists.mpr
      exact ⟨u, hu, by simp [hbad]⟩
    unfold requiredBindAfterOptional
    dsimp only
    cases hscan : raoScan (inputs.filter InputNode.isBind) false none with
    | none => rfl
    | some b =>
      have hne : ¬ inputs.length = (inputs.filter InputNode.isBind).length := by
        omega
      show (if inputs.length = (inputs.filter InputNode.isBind).length
        then some (RequiredAfterOptional.mk b) else none) = none
      rw [if_neg hne]
  · intro hall
    have hfilter : inputs.filter InputNode.isBind = inputs :=
      List.filter_eq_self.mpr hall
    unfold requiredBindAfterOptional
    dsimp only
    rw [hfilter, raoScan_false]
    cases hf : firstRequiredAfterOptional inputs with
    | none => rfl
    | some b =>
      show (if inputs.length = inputs.length
        then some (RequiredAfterOptional.mk b) else none) = _
      rw [if_pos rfl]
      rfl

/-- Witness for C10: an unparsable input suppresses the conflict; an
all-binds list yields the first required-after-optional bind. -/
theorem requiredBindAfterOptional_characterized_witness :
    requiredBindAfterOptional
        [InputNode.unparsableInput 9, InputNode.bindInput 0 true,
          InputNode.bindInput 1 false] = none ∧
    requiredBindAfterOptional
        [InputNode.bindInput 0 true, InputNode.bindInput 1 false,
          InputNode.bindInput 2 false] =
      some ⟨InputNode.bindInput 1 false⟩ := by
  constructor
  · exact (requiredBindAfterOptional_characterized _).1
      ⟨InputNode.unparsableInput 9, by decide, by decide⟩
  · have h := (requiredBindAfterOptional_characterized
      [InputNode.bindInput 0 true, InputNode.bindInput 1 false,
        InputNode.bindInput 2 false]).2 (by decide)
    rw [h]
    rfl

/-- Reference description of the per-cell conflicts of a fully-named row:
an `UnknownColumn` for each bind cell naming no column, an
`IncompatibleCellType` for each bind cell matched to a column whose value
type does not accept the cell's type. -/
def bindCellConflictsSpec (ctx : Ctx) (tt : TableTypeA) (cells : List CellV) :
    List RowConflict :=
  cells.flatMap (fun cell =>
    match cell with
    | .exprCell _ _ => []
    | .bindCell cid names given =>
      match tt.getColumnNamed names.head? with
      | none => [.unknownColumn cid]
      | some col =>
        if ctx.accepts col.valueType given then []
        else [.incompatibleCellType cid col.valueType given])

/-- Reference description of the matched columns of a fully-named row:
the columns named (by first name) by the row's bind cells, in cell
order. -/
def matchedColumnsSpec (tt : TableTypeA) (cells : List CellV) :
    List ColumnType :=
  cells.filterMap (fun cell =>
    match cell with
    | .exprCell _ _ => none
    | .bindCell _ names _ => tt.getColumnNamed names.head?)

/-- Reference description of the type conflicts of a fully-unnamed row:
an `IncompatibleCellType` for each positionally paired column and cell
whose types do not agree. -/
def zipIncompat (ctx : Ctx) (pairs : List (ColumnType × CellV)) :
    List RowConflict :=
  pairs.flatMap (fun p =>
    if ctx.accepts p.1.valueType p.2.givenType then []
    else [.incompatibleCellType p.2.cellId p.1.valueType p.2.givenType])

theorem bindLoop_conflicts (ctx : Ctx) (tt : TableTypeA)
    (cells : List CellV) (m : List ColumnType) (acc : List RowConflict) :
    (bindLoop ctx tt cells m acc).2 =
      acc ++ bindCellConflictsSpec ctx tt cells := by
  induction cells generalizing m acc with
  | nil => simp [bindLoop, bindCellConflictsSpec]
  | cons cell cells ih =>
    cases cell with
    | exprCell i g => simp [bindLoop, bindCellConflictsSpec, ih]
    | bindCell cid names given =>
      cases hlook : tt.getColumnNamed names.head? with
      | none =>
        simp [bindLoop, bindCellConflictsSpec, hlook, ih, List.append_assoc]
      | some col =>
        by_cases hacc : ctx.accepts col.valueType given = true <;>
          simp [bindLoop, bindCellConflictsSpec, hlook, hacc, ih,
            List.append_assoc]

theorem bindLoop_matched (ctx : Ctx) (tt : TableTypeA)
    (cells : List CellV) (m : List ColumnType) (acc : List RowConflict) :
    (bindLoop ctx tt cells m acc).1 = m ++ matchedColumnsSpec tt cells := by
  induction cells generalizing m acc with
  | nil => simp [bindLoop, matchedColumnsSpec]
  | cons cell cells ih =>
    cases cell with
    | exprCell i g => simp [bindLoop, matchedColumnsSpec, ih]
    | bindCell cid names given =>
      cases hlook : tt.getColumnNamed names.head? with
      | none => simp [bindLoop, matchedColumnsSpec, hlook, ih]
      | some col =>
        by_cases hacc : ctx.accepts col.valueType given = true <;>
          simp [bindLoop, matchedColumnsSpec, hlook, hacc, ih]

theorem missingLoop_eq (rowId : Nat) (matched : List ColumnType)
    (cols : List ColumnType) :
    missingLoop rowId matched cols =
      (cols.filter (fun c => !matched.contains c && !c.hasDefault)).map
        (fun c => .missingCell rowId c.id) := by
  induction cols with
  | nil => simp [missingLoop]
  | cons col cols ih =>
    simp only [missingLoop, List.filter_cons, ih]
    by_cases h : col ∈ matched
    · simp [h]
    · by_cases hd : col.hasDefault <;> simp [h, hd]

theorem exprLoop_eq (ctx : Ctx) (rowId : Nat)
    (cols : List ColumnType) (cells : List CellV) :
    exprLoop ctx rowId cols cells =
      zipIncompat ctx (cols.zip cells) ++
        (cols.drop cells.length).map (fun c => .missingCell rowId c.id) := by
  induction cols generalizing cells with
  | nil => simp [exprLoop, zipIncompat]
  | cons col cols ih =>
    cases cells with
    | nil => simp [exprLoop, zipIncompat, ih]
    | cons cell cells =>
      by_cases h : ctx.accepts col.valueType cell.givenType = true <;>
        simp [exprLoop, zipIncompat, h, ih, List.append_assoc]

/-- Claim C4 counterexample: a fully-unnamed row providing one compatible
cell against a two-column table whose second column has a default still
produces a `MissingCell` for the defaulted second column, refuting
"a MissingCell conflict for each column that receives no value and has
no default". -/
theorem analyzeRow_missing_defaulted_column_counterexample :
    analyzeRow ⟨fun a b => a == b⟩
        ⟨[⟨1, ["x"], 5, false⟩, ⟨2, ["y"], 6, true⟩]⟩
        ⟨9, [.exprCell 10 5]⟩ =
      [RowConflict.missingCell 9 2] ∧
    (⟨2, ["y"], 6, true⟩ : ColumnType).hasDefault = true := by
  exact ⟨rfl, rfl⟩

/-- Claim C4 (amended): `analyzeRow` returns an `InvalidRow` when the row
mixes named (bind) cells and unnamed expression cells; on a fully-named
row, the per-cell unknown-column and incompatible-cell-type conflicts
followed by a `MissingCell` for each unmatched column without a default;
on a fully-unnamed (nonempty) row, an `IncompatibleCellType` for each
positionally provided cell whose type the column does not accept,
followed by a `MissingCell` for each column beyond the provided cells,
whether or not it has a default. -/
theorem analyzeRow_characterized (ctx : Ctx) (tt : TableTypeA) (row : RowA) :
    (row.cells.all CellV.isBind = false →
      row.cells.all (fun c => !c.isBind) = false →
      analyzeRow ctx tt row = [.invalidRow row.id]) ∧
    (row.cells.all CellV.isBind = true →
      analyzeRow ctx tt row =
        bindCellConflictsSpec ctx tt row.cells ++
          (tt.columns.filter (fun c =>
            !(matchedColumnsSpec tt row.cells).contains c &&
              !c.hasDefault)).map (fun c => .missingCell row.id c.id)) ∧
    (row.cells.all (fun c => !c.isBind) = true →
      row.cells.all CellV.isBind = false →
      analyzeRow ctx tt row =
        zipIncompat ctx (tt.columns.zip row.cells) ++
          (tt.columns.drop row.cells.length).map
            (fun c => .missingCell row.id c.id)) := by
  refine ⟨?_, ?_, ?_⟩
  · intro h1 h2
    simp [analyzeRow, h1, h2]
  · intro h
    have hbr : analyzeRow ctx tt row =
        (bindLoop ctx tt row.cells [] []).2 ++
          missingLoop row.id (bindLoop ctx tt row.cells [] []).1 tt.columns := by
      simp [analyzeRow, h]
    rw [hbr, bindLoop_conflicts, bindLoop_matched, missingLoop_eq]
    simp
  · intro h1 h2
    have hbr : analyzeRow ctx tt row =
        exprLoop ctx row.id tt.columns row.cells := by
      simp [analyzeRow, h1, h2]
    rw [hbr, exprLoop_eq]

/-- Witness for C4 (amended) at a two-column table: a mixed row, a named
row matching the first column, and an unnamed row providing one cell. -/
theorem analyzeRow_characterized_witness :
    analyzeRow ⟨fun a b => a == b⟩
        ⟨[⟨1, ["x"], 5, false⟩, ⟨2, ["y"], 6, true⟩]⟩
        ⟨9, [.bindCell 10 ["x"] 5, .exprCell 11 6]⟩ =
      [RowConflict.invalidRow 9] ∧
    analyzeRow ⟨fun a b => a == b⟩
        ⟨[⟨1, ["x"], 5, false⟩, ⟨2, ["y"], 6, true⟩]⟩
        ⟨9, [.bindCell 10 ["x"] 5]⟩ = [] ∧
    analyzeRow ⟨fun a b => a == b⟩
        ⟨[⟨1, ["x"], 5, false⟩, ⟨2, ["y"], 6, true⟩]⟩
        ⟨9, [.exprCell 10 7]⟩ =
      [RowConflict.incompatibleCellType 10 5 7,
        RowConflict.missingCell 9 2] := by
  refine ⟨?_, ?_, ?_⟩
  · rw [(analyzeRow_characterized ⟨fun a b => a == b⟩
      ⟨[⟨1, ["x"], 5, false⟩, ⟨2, ["y"], 6, true⟩]⟩
      ⟨9, [.bindCell 10 ["x"] 5, .exprCell 11 6]⟩).1 (by decide) (by decide)]
  · rw [(analyzeRow_characterized ⟨fun a b => a == b⟩
      ⟨[⟨1, ["x"], 5, false⟩, ⟨2, ["y"], 6, true⟩]⟩
      ⟨9, [.bindCell 10 ["x"] 5]⟩).2.1 (by decide)]
    rfl
  · rw [(analyzeRow_characterized ⟨fun a b => a == b⟩
      ⟨[⟨1, ["x"], 5, false⟩, ⟨2, ["y"], 6, true⟩]⟩
      ⟨9, [.exprCell 10 7]⟩).2.2 (by decide) (by decide)]
    rfl
